import Mathlib

/-!
# Verification of the rpm transaction-set core (`lib/rpmts.cc`)

A shallow embedding of the transaction-set core of rpm.  Pure logic is
translated directly from the C++ source; stateful code becomes explicit
state passing.  External collaborators of the core (the keyring
primitives, `rpmsqBlock`, `rpmGetPath`, the wall clock) are modelled from
the specification's description of them, each marked `Modelled from the
spec:` in its doc comment.  Machine integers are modelled as `Int`/`Nat`;
the one place truncation matters (`rpm_time_t` is a 32-bit unsigned
value) carries an explicit `% 2^32`.
-/

/-- Return codes of the `rpmRC` enumeration (only the constructors the
    transaction-set core produces). -/
inductive rpmRC where
  | RPMRC_OK
  | RPMRC_FAIL
deriving DecidableEq, Repr

/-- A transaction element (`rpmte`): its type mask (`rpmteType`) and an
    identity used to tell elements apart. -/
structure rpmte_s where
  teType : Nat
  teId : Nat
deriving DecidableEq, Repr

/-- An OpenPGP public key (`rpmPubkey`): its fingerprint and the set of
    packet material it carries (abstracted as numbers), which is what the
    merge operation compares. -/
structure rpmPubkey_s where
  fingerprint : Nat
  material : List Nat
deriving DecidableEq, Repr

/-- The in-memory trust keyring (`rpmKeyring`). -/
structure rpmKeyring_s where
  keys : List rpmPubkey_s
deriving DecidableEq, Repr

/-- The members record carved out of the set (`tsMembers_s` in
    `rpmts_internal.hh`): the ordered element list, the removed-package
    offsets, the added-package index, the cached rpmlib dependency set and
    the string interning pool.  `pool = some p` models an allocated pool
    with identity `p`; `none` models a null pool pointer. -/
structure tsMembers_s where
  order : List rpmte_s
  removedPackages : List Nat
  addedPackages : Option Nat
  rpmlib : Option Nat
  pool : Option Nat
deriving DecidableEq, Repr

/-- The transaction set (`rpmts_s`), restricted to the fields the
    verified operations read or write. -/
structure rpmts_s where
  dbmode : Int
  rdb : Option Unit
  rootDir : Option String
  overrideTime : Int
  vsflags : Nat
  transFlags : Nat
  nrefs : Int
  keyring : Option rpmKeyring_s
  members : tsMembers_s
deriving DecidableEq, Repr

/-- `rpmtsGetRdb` (rpmts.cc:702): the open database handle, null when the
    database is closed. -/
def rpmtsGetRdb (ts : rpmts_s) : Option Unit := ts.rdb

/-- `rpmtsNElements` (rpmts.cc:746): the number of elements in `order`. -/
def rpmtsNElements (ts : rpmts_s) : Nat := ts.members.order.length

/-- `rpmtsSetDBMode` (rpmts.cc:120): mode setting is only permitted on a
    non-open database; returns 0 on success, 1 otherwise.  A null set is
    modelled by `none`. -/
def rpmtsSetDBMode (ts : Option rpmts_s) (dbmode : Int) : Int × Option rpmts_s :=
  match ts with
  | some t =>
    if rpmtsGetRdb t = none then (0, some { t with dbmode := dbmode })
    else (1, some t)
  | none => (1, none)

/-- Change-callback events (`RPMTS_EVENT_ADD` / `RPMTS_EVENT_DEL`). -/
inductive tsEvent where
  | ADD
  | DEL
deriving DecidableEq, Repr

/-- `rpmtsEmpty` (rpmts.cc:493): after `rpmtsClean` (which frees
    `addedPackages` and `rpmlib`), emits one `DEL` change event per element
    of `order`, frees the elements, clears `order`, then frees the string
    pool (`tsmem->pool = rpmstrPoolFree(tsmem->pool)`, rpmts.cc:508) and
    clears `removedPackages`.  Returns the new set together with the list
    of change events emitted, in emission order. -/
def rpmtsEmpty (ts : rpmts_s) : rpmts_s × List (tsEvent × rpmte_s) :=
  let tsmem := ts.members
  let events := tsmem.order.map (fun te => (tsEvent.DEL, te))
  let tsmem' : tsMembers_s :=
    { order := []
      removedPackages := []
      addedPackages := none
      rpmlib := none
      pool := none }
  ({ ts with members := tsmem' }, events)

/-- `rpmtxnDeletePubkey` (rpmts.cc:386), keyed on whether the transaction
    handle is non-null, whether the `TEST` transaction flag is set, and on
    the return code the keystore's `delete_key` would produce.  Returns
    the function's return code together with a flag recording whether
    `delete_key` was invoked.  The shadowing `let rc` mirrors the source's
    unconditional `rc = RPMRC_OK;` after the keystore call (rpmts.cc:404). -/
def rpmtxnDeletePubkey (txnExists : Bool) (testMode : Bool)
    (delete_key_rc : rpmRC) : rpmRC × Bool :=
  if txnExists then
    let rc := if testMode then rpmRC.RPMRC_OK else delete_key_rc
    let called := if testMode then false else true
    let rc := rpmRC.RPMRC_OK
    (rc, called)
  else
    (rpmRC.RPMRC_FAIL, false)

/-- Effects a database rebuild may perform, in order. -/
inductive RebuildEff where
  | acquiredWriteTxn
  | dbRebuild
deriving DecidableEq, Repr

/-- `rpmtsRebuildDB` (rpmts.cc:132): refuses (returns -1, no effects) on a
    populated transaction set; otherwise opens a write transaction
    (success given by `lockOK`) and rebuilds, the rebuild's own return
    code given by `rebuildRC`.  Returns (code, set, effect trace). -/
def rpmtsRebuildDB (ts : rpmts_s) (lockOK : Bool) (rebuildRC : Int) :
    Int × rpmts_s × List RebuildEff :=
  if rpmtsNElements ts > 0 then (-1, ts, [])
  else if lockOK then (rebuildRC, ts, [.acquiredWriteTxn, .dbRebuild])
  else (-1, ts, [])

/-- Modelled from the spec: `rpmGetPath` (external to `src/`) performs
    macro expansion and path cleaning; on a macro-free already-clean
    absolute path it is the identity. -/
def rpmGetPath (path : String) : String := path

/-- `rpmtsSetRootDir` (rpmts.cc:646): rejects a null set and a non-null,
    non-absolute path with -1; otherwise installs the cleaned path,
    appending a trailing slash unless the result is exactly "/".  A null
    `rootDir` argument installs "/". -/
def rpmtsSetRootDir (ts : Option rpmts_s) (rootDir : Option String) :
    Int × Option rpmts_s :=
  match ts with
  | none => (-1, none)
  | some t =>
    match rootDir with
    | some r =>
      if r.data.head? ≠ some '/' then (-1, some t)
      else
        let base := rpmGetPath r
        let newRoot := if base = "/" then base else base ++ "/"
        (0, some { t with rootDir := some newRoot })
    | none =>
      let base := "/"
      let newRoot := if base = "/" then base else base ++ "/"
      (0, some { t with rootDir := some newRoot })

/-- C10: `rpmtsSetDBMode` succeeds (returns 0 and records the mode)
    exactly when the set is non-null and no database handle is open;
    when the set is null or a handle is open it returns 1 and leaves
    `dbmode` unchanged. -/
theorem rpmtsSetDBMode_spec_c10 :
    (∀ (t : rpmts_s) (m : Int), t.rdb = none →
      rpmtsSetDBMode (some t) m = (0, some { t with dbmode := m })) ∧
    (∀ (t : rpmts_s) (m : Int), t.rdb ≠ none →
      rpmtsSetDBMode (some t) m = (1, some t)) ∧
    (∀ m : Int, rpmtsSetDBMode none m = (1, none)) := by
  refine ⟨?_, ?_, ?_⟩
  · intro t m h
    simp [rpmtsSetDBMode, rpmtsGetRdb, h]
  · intro t m h
    simp [rpmtsSetDBMode, rpmtsGetRdb, h]
  · intro m
    rfl

/-- An empty members record, for concrete test sets. -/
def emptyMembers : tsMembers_s :=
  { order := []
    removedPackages := []
    addedPackages := none
    rpmlib := none
    pool := none }

/-- A freshly created set with no database handle open. -/
def tsClosed : rpmts_s :=
  { dbmode := 0
    rdb := none
    rootDir := some "/"
    overrideTime := -1
    vsflags := 0
    transFlags := 0
    nrefs := 1
    keyring := none
    members := emptyMembers }

/-- A set whose database handle is open. -/
def tsOpen : rpmts_s := { tsClosed with rdb := some () }

/-- Two distinct concrete transaction elements. -/
def te1 : rpmte_s := { teType := 1, teId := 1 }

/-- See `te1`. -/
def te2 : rpmte_s := { teType := 2, teId := 2 }

/-- A set populated with two elements, an allocated string pool, a
    removed-package offset and an added-package index. -/
def tsPopulated : rpmts_s :=
  { tsClosed with
      members := { order := [te1, te2]
                   removedPackages := [7]
                   addedPackages := some 1
                   rpmlib := some 1
                   pool := some 1 } }

/-- Witness for C10 at concrete inputs: a closed set accepts the mode
    change, an open one refuses it, a null set refuses it. -/
theorem rpmtsSetDBMode_spec_c10_witness :
    (rpmtsSetDBMode (some tsClosed) 2 = (0, some { tsClosed with dbmode := 2 })) ∧
    (rpmtsSetDBMode (some tsOpen) 2 = (1, some tsOpen)) ∧
    rpmtsSetDBMode none 2 = (1, none) := by
  refine ⟨?_, ?_, ?_⟩
  · exact rpmtsSetDBMode_spec_c10.1 tsClosed 2 rfl
  · exact rpmtsSetDBMode_spec_c10.2.1 tsOpen 2 (by simp [tsOpen])
  · exact rpmtsSetDBMode_spec_c10.2.2 2

/-- C1: evaluation of `rpmtsEmpty` on a populated set with an allocated
    pool.  The element count does drop to 0 and each prior element of
    `order` receives exactly one `DEL` change event, but the string pool
    does NOT survive: `rpmtsEmpty` frees it (rpmts.cc:508), directly
    contradicting the comment above that line ("The pool cannot be
    emptied, there might be references to its contents") and invariant 5
    of the specification. -/
theorem rpmtsEmpty_frees_pool_c1 :
    rpmtsNElements (rpmtsEmpty tsPopulated).1 = 0 ∧
    (rpmtsEmpty tsPopulated).2 = [(tsEvent.DEL, te1), (tsEvent.DEL, te2)] ∧
    tsPopulated.members.pool = some 1 ∧
    (rpmtsEmpty tsPopulated).1.members.pool = none := by
  refine ⟨rfl, rfl, rfl, rfl⟩

/-- C2: evaluation of `rpmtxnDeletePubkey`.  In TEST mode it returns OK
    without invoking the keystore, as claimed; but outside TEST mode,
    when the keystore's `delete_key` fails, the function still returns OK:
    the source overwrites `rc` with `RPMRC_OK` after the keystore call
    (rpmts.cc:404), so the result never reflects the keystore's return
    code. -/
theorem rpmtxnDeletePubkey_masks_error_c2 :
    rpmtxnDeletePubkey true true rpmRC.RPMRC_FAIL = (rpmRC.RPMRC_OK, false) ∧
    rpmtxnDeletePubkey true false rpmRC.RPMRC_FAIL = (rpmRC.RPMRC_OK, true) := by
  refine ⟨rfl, rfl⟩

/-- C5: on a transaction set with pending elements, `rpmtsRebuildDB`
    returns -1 with no write transaction acquired, no database rebuild
    attempted and the set unchanged. -/
theorem rpmtsRebuildDB_refuses_nonempty_c5 (ts : rpmts_s) (lockOK : Bool)
    (rebuildRC : Int) (h : rpmtsNElements ts > 0) :
    rpmtsRebuildDB ts lockOK rebuildRC = (-1, ts, []) := by
  simp [rpmtsRebuildDB, h]

/-- Witness for C5: a set holding two elements is refused. -/
theorem rpmtsRebuildDB_refuses_nonempty_c5_witness :
    rpmtsNElements tsPopulated > 0 ∧
    rpmtsRebuildDB tsPopulated true 0 = (-1, tsPopulated, []) := by
  refine ⟨by decide, rpmtsRebuildDB_refuses_nonempty_c5 tsPopulated true 0 (by decide)⟩

/-- C8: `rpmtsSetRootDir` with a non-absolute path returns non-zero and
    leaves the root directory unchanged; with a null path it succeeds and
    installs "/"; and every successful call leaves an absolute root
    directory ending in '/'. -/
theorem rpmtsSetRootDir_spec_c8 :
    (∀ (t : rpmts_s) (r : String), r.data.head? ≠ some '/' →
      rpmtsSetRootDir (some t) (some r) = (-1, some t)) ∧
    (∀ t : rpmts_s,
      rpmtsSetRootDir (some t) none = (0, some { t with rootDir := some "/" })) ∧
    (∀ (t : rpmts_s) (r : String), r.data.head? = some '/' →
      (rpmtsSetRootDir (some t) (some r)).1 = 0 ∧
      ∃ r' : String,
        (rpmtsSetRootDir (some t) (some r)).2 = some { t with rootDir := some r' } ∧
        r'.data.head? = some '/' ∧ r'.data.getLast? = some '/') := by
  refine ⟨?_, ?_, ?_⟩
  · intro t r h
    simp [rpmtsSetRootDir, h]
  · intro t
    rfl
  · intro t r h
    have hne : ¬ (r.data.head? ≠ some '/') := by simp [h]
    by_cases hr : rpmGetPath r = "/"
    · refine ⟨by simp [rpmtsSetRootDir, hne, hr], "/", ?_, rfl, rfl⟩
      simp [rpmtsSetRootDir, hne, hr]
    · refine ⟨by simp [rpmtsSetRootDir, hne, hr], rpmGetPath r ++ "/", ?_, ?_, ?_⟩
      · simp [rpmtsSetRootDir, hne, hr]
      · have hd : (rpmGetPath r ++ "/").data = r.data ++ ['/'] := by
          simp [rpmGetPath, String.data_append]
        have hnil : r.data ≠ [] := by
          intro hc
          rw [hc] at h
          exact (by simp at h)
        rw [hd, List.head?_append_of_ne_nil _ hnil]
        exact h
      · have hd : (rpmGetPath r ++ "/").data = r.data ++ '/' :: [] := by
          simp [rpmGetPath, String.data_append]
        rw [hd, List.getLast?_append_cons]
        rfl

/-- Witness for C8: "x" is refused and leaves the root unchanged; a null
    path installs "/"; "/usr" is accepted and yields an absolute root
    ending in '/'. -/
theorem rpmtsSetRootDir_spec_c8_witness :
    (rpmtsSetRootDir (some tsClosed) (some "x") = (-1, some tsClosed)) ∧
    (rpmtsSetRootDir (some tsClosed) none
      = (0, some { tsClosed with rootDir := some "/" })) ∧
    ((rpmtsSetRootDir (some tsClosed) (some "/usr")).1 = 0 ∧
      ∃ r' : String,
        (rpmtsSetRootDir (some tsClosed) (some "/usr")).2
          = some { tsClosed with rootDir := some r' } ∧
        r'.data.head? = some '/' ∧ r'.data.getLast? = some '/') := by
  refine ⟨?_, ?_, ?_⟩
  · exact rpmtsSetRootDir_spec_c8.1 tsClosed "x" (by decide)
  · exact rpmtsSetRootDir_spec_c8.2.1 tsClosed
  · exact rpmtsSetRootDir_spec_c8.2.2 tsClosed "/usr" (by decide)

/-- Transaction-handle flags (`rpmtxnFlags`): read or write. -/
inductive rpmtxnFlags where
  | RPMTXN_READ
  | RPMTXN_WRITE
deriving DecidableEq, Repr

/-- The two operations of `rpmsqBlock`. -/
inductive SigOp where
  | SIG_BLOCK
  | SIG_UNBLOCK
deriving DecidableEq, Repr

/-- Modelled from the spec: the process signal-mask state for
    SIGINT/SIGTERM/SIGQUIT as maintained by `rpmsqBlock` (external to
    `src/`), which nests; the three signals are masked exactly while the
    depth is positive. -/
structure SigMask where
  blockDepth : Nat
deriving DecidableEq, Repr

/-- Modelled from the spec: `rpmsqBlock` masks (`SIG_BLOCK`) or unmasks
    (`SIG_UNBLOCK`) SIGINT/SIGTERM/SIGQUIT, restoring the previous mask
    when the outermost block is undone. -/
def rpmsqBlock (op : SigOp) (m : SigMask) : SigMask :=
  match op with
  | .SIG_BLOCK => { blockDepth := m.blockDepth + 1 }
  | .SIG_UNBLOCK => { blockDepth := m.blockDepth - 1 }

/-- Whether SIGINT/SIGTERM/SIGQUIT are currently masked. -/
def sigMasked (m : SigMask) : Bool := m.blockDepth != 0

/-- A transaction handle (`rpmtxn_s`): the flags it was opened with (the
    lock and set back-reference are part of the explicit state). -/
structure rpmtxn_s where
  flags : rpmtxnFlags
deriving DecidableEq, Repr

/-- `rpmtxnBegin` (rpmts.cc:1046): acquires the lock (success given by
    `lockOK`; the lazy lock-path resolution does not affect this state);
    on success allocates a handle, links the set (refcount +1) and, for a
    write transaction, blocks SIGINT/SIGTERM/SIGQUIT.  Returns null and
    changes nothing on lock failure. -/
def rpmtxnBegin (ts : rpmts_s) (flags : rpmtxnFlags) (lockOK : Bool)
    (sig : SigMask) : Option rpmtxn_s × rpmts_s × SigMask :=
  if lockOK then
    let txn : rpmtxn_s := { flags := flags }
    let ts' := { ts with nrefs := ts.nrefs + 1 }
    let sig' := if flags = .RPMTXN_WRITE then rpmsqBlock .SIG_BLOCK sig else sig
    (some txn, ts', sig')
  else
    (none, ts, sig)

/-- `rpmtxnEnd` (rpmts.cc:1087): releases the lock, unblocks the signals
    if the handle was a writer, unlinks the set (refcount -1) and frees
    the handle; tolerates null. -/
def rpmtxnEnd (txn : Option rpmtxn_s) (ts : rpmts_s) (sig : SigMask) :
    rpmts_s × SigMask :=
  match txn with
  | none => (ts, sig)
  | some t =>
    let sig' := if t.flags = .RPMTXN_WRITE then rpmsqBlock .SIG_UNBLOCK sig else sig
    ({ ts with nrefs := ts.nrefs - 1 }, sig')

/-- C4: a successful write `rpmtxnBegin` leaves SIGINT/SIGTERM/SIGQUIT
    masked, and the matching `rpmtxnEnd` restores the signal mask that
    held before `begin`; a read transaction alters the signal mask neither
    at `begin` (whether or not the lock is granted) nor at `end`. -/
theorem rpmtxn_signal_mask_c4 :
    (∀ (ts : rpmts_s) (sig : SigMask),
      (rpmtxnBegin ts .RPMTXN_WRITE true sig).1 = some { flags := .RPMTXN_WRITE } ∧
      sigMasked (rpmtxnBegin ts .RPMTXN_WRITE true sig).2.2 = true ∧
      (rpmtxnEnd (rpmtxnBegin ts .RPMTXN_WRITE true sig).1
        (rpmtxnBegin ts .RPMTXN_WRITE true sig).2.1
        (rpmtxnBegin ts .RPMTXN_WRITE true sig).2.2).2 = sig) ∧
    (∀ (ts : rpmts_s) (sig : SigMask) (lockOK : Bool),
      (rpmtxnBegin ts .RPMTXN_READ lockOK sig).2.2 = sig) ∧
    (∀ (ts : rpmts_s) (sig : SigMask),
      (rpmtxnEnd (some { flags := .RPMTXN_READ }) ts sig).2 = sig) := by
  refine ⟨?_, ?_, ?_⟩
  · intro ts sig
    refine ⟨rfl, rfl, ?_⟩
    simp [rpmtxnBegin, rpmtxnEnd, rpmsqBlock, sigMasked]
  · intro ts sig lockOK
    cases lockOK <;> rfl
  · intro ts sig
    rfl

/-- `rpmtsCreate` seeding of the override time (rpmts.cc:925-930): the
    integer value of `SOURCE_DATE_EPOCH` when the variable is present,
    `(time_t)-1` otherwise. -/
def sourceDateEpochOverride (sde : Option Int) : Int :=
  match sde with
  | some v => v
  | none => -1

/-- The state threaded through `rpmtsGetTime`: the set's override time
    and the current position in the ambient wall clock. -/
structure TimeState where
  overrideTime : Int
  tick : Nat
deriving DecidableEq, Repr

/-- `rpmtsGetTime` (rpmts.cc:983): when the override time is the `-1`
    sentinel, returns the wall clock (`clock` maps successive observation
    instants to `time_t` values); otherwise returns the override time and
    advances it by `step`.  The value is returned as `rpm_time_t`, a
    32-bit unsigned quantity, hence the `% 2 ^ 32`. -/
def rpmtsGetTime (clock : Nat → Int) (st : TimeState) (step : Int) :
    Int × TimeState :=
  if st.overrideTime = -1 then
    (clock st.tick % 2 ^ 32, { st with tick := st.tick + 1 })
  else
    (st.overrideTime % 2 ^ 32,
     { overrideTime := st.overrideTime + step, tick := st.tick + 1 })

/-- The value returned by the `n`-th successive call to `rpmtsGetTime`
    (0-based), every call made with the same step. -/
def getTimeValue (clock : Nat → Int) (st : TimeState) (step : Int) : Nat → Int
  | 0 => (rpmtsGetTime clock st step).1
  | n + 1 => getTimeValue clock (rpmtsGetTime clock st step).2 step n

/-- Helper for C9: with a non-negative override time and step, the `n`-th
    call returns the arithmetic progression value. -/
theorem getTimeValue_progression (clock : Nat → Int) (step o : Int) (tick : Nat)
    (n : Nat) (ho : 0 ≤ o) (hs : 0 ≤ step) :
    getTimeValue clock { overrideTime := o, tick := tick } step n
      = (o + n * step) % 2 ^ 32 := by
  induction n generalizing o tick with
  | zero =>
    have hne : o ≠ -1 := by omega
    simp [getTimeValue, rpmtsGetTime, hne]
  | succ n ih =>
    have hne : o ≠ -1 := by omega
    have ho' : 0 ≤ o + step := by omega
    have hstep : rpmtsGetTime clock { overrideTime := o, tick := tick } step
        = (o % 2 ^ 32, { overrideTime := o + step, tick := tick + 1 }) := by
      simp [rpmtsGetTime, hne]
    simp only [getTimeValue, hstep]
    rw [ih (o + step) (tick + 1) ho']
    congr 1
    push_cast
    ring

/-- C9: with an override time seeded from `SOURCE_DATE_EPOCH` and any
    non-negative step, successive `rpmtsGetTime` calls return the
    arithmetic progression `epoch, epoch + step, epoch + 2*step, …`
    (concretely `1000000000, 1000000003, 1000000006` for epoch
    `1000000000` and step 3); with `SOURCE_DATE_EPOCH` unset, two
    successive calls return non-decreasing wall-clock values. -/
theorem rpmtsGetTime_spec_c9 :
    (∀ (clock : Nat → Int) (epoch step : Int) (tick n : Nat),
      0 ≤ epoch → 0 ≤ step →
      getTimeValue clock
        { overrideTime := sourceDateEpochOverride (some epoch), tick := tick }
        step n = (epoch + n * step) % 2 ^ 32) ∧
    (∀ clock : Nat → Int,
      getTimeValue clock
        { overrideTime := sourceDateEpochOverride (some 1000000000), tick := 0 }
        3 0 = 1000000000 ∧
      getTimeValue clock
        { overrideTime := sourceDateEpochOverride (some 1000000000), tick := 0 }
        3 1 = 1000000003 ∧
      getTimeValue clock
        { overrideTime := sourceDateEpochOverride (some 1000000000), tick := 0 }
        3 2 = 1000000006) ∧
    (∀ (clock : Nat → Int) (tick : Nat) (step : Int),
      Monotone clock → (∀ i, 0 ≤ clock i ∧ clock i < 2 ^ 32) →
      getTimeValue clock
        { overrideTime := sourceDateEpochOverride none, tick := tick } step 0 ≤
      getTimeValue clock
        { overrideTime := sourceDateEpochOverride none, tick := tick } step 1) := by
  refine ⟨?_, ?_, ?_⟩
  · intro clock epoch step tick n he hs
    exact getTimeValue_progression clock step epoch tick n he hs
  · intro clock
    refine ⟨?_, ?_, ?_⟩ <;>
      simp [getTimeValue, rpmtsGetTime, sourceDateEpochOverride]
  · intro clock tick step hmono hbound
    have h0 : getTimeValue clock
        { overrideTime := sourceDateEpochOverride none, tick := tick } step 0
        = clock tick := by
      simp [getTimeValue, rpmtsGetTime, sourceDateEpochOverride]
      exact Int.emod_eq_of_lt (hbound tick).1 (hbound tick).2
    have h1 : getTimeValue clock
        { overrideTime := sourceDateEpochOverride none, tick := tick } step 1
        = clock (tick + 1) := by
      simp [getTimeValue, rpmtsGetTime, sourceDateEpochOverride]
      exact Int.emod_eq_of_lt (hbound (tick + 1)).1 (hbound (tick + 1)).2
    rw [h0, h1]
    exact hmono (Nat.le_succ tick)

/-- Witness for C9: the progression at epoch 5, step 2, third call, and
    the wall-clock conjunct at a constant bounded clock. -/
theorem rpmtsGetTime_spec_c9_witness :
    ((0 : Int) ≤ 5 ∧ (0 : Int) ≤ 2 ∧
      getTimeValue (fun _ => 42)
        { overrideTime := sourceDateEpochOverride (some 5), tick := 0 } 2 2 = 9) ∧
    (getTimeValue (fun _ => 42)
        { overrideTime := sourceDateEpochOverride none, tick := 0 } 3 0 ≤
      getTimeValue (fun _ => 42)
        { overrideTime := sourceDateEpochOverride none, tick := 0 } 3 1) := by
  constructor
  · refine ⟨by norm_num, by norm_num, ?_⟩
    have := rpmtsGetTime_spec_c9.1 (fun _ => 42) 5 2 0 2 (by norm_num) (by norm_num)
    rw [this]
    decide
  · exact rpmtsGetTime_spec_c9.2.2 (fun _ => 42) 0 3 monotone_const
      (fun i => ⟨by norm_num, by norm_num⟩)

/-- Modelled from the spec: `rpmKeyringLookupKey` (external to `src/`)
    looks an existing key up by fingerprint. -/
def rpmKeyringLookupKey (kr : rpmKeyring_s) (key : rpmPubkey_s) :
    Option rpmPubkey_s :=
  kr.keys.find? (fun k => k.fingerprint == key.fingerprint)

/-- Modelled from the spec: `rpmPubkeyMerge` (external to `src/`) merges
    old + new key material; when the new key brings no material not
    already present the merge is a no-op and no merged key is produced. -/
def rpmPubkeyMerge (oldkey newkey : rpmPubkey_s) : Option rpmPubkey_s :=
  let fresh := newkey.material.filter (fun m => !(oldkey.material.contains m))
  if fresh = [] then none
  else some { fingerprint := oldkey.fingerprint
              material := oldkey.material ++ fresh }

/-- The two modes of `rpmKeyringModify`. -/
inductive keyringMode where
  | RPMKEYRING_ADD
  | RPMKEYRING_REPLACE
deriving DecidableEq, Repr

/-- Modelled from the spec: `rpmKeyringModify` (external to `src/`) adds
    a new key or replaces the record with a matching fingerprint;
    0 means "changed", 1 means "no change", negative results are errors
    (never produced by this model). -/
def rpmKeyringModify (kr : rpmKeyring_s) (key : rpmPubkey_s)
    (mode : keyringMode) : Int × rpmKeyring_s :=
  match mode with
  | .RPMKEYRING_ADD =>
    if kr.keys.any (fun k => k.fingerprint == key.fingerprint) then (1, kr)
    else (0, { keys := key :: kr.keys })
  | .RPMKEYRING_REPLACE =>
    (0, { keys := key :: kr.keys.filter (fun k => k.fingerprint != key.fingerprint) })

/-- `rpmtxnImportPubkey` (rpmts.cc:316) after a successful lint and
    packet parse (both modelled as preconditions of reaching this logic;
    their failures abort with `RPMRC_FAIL` before any state change).
    `import_key_rc` is the code the keystore's `import_key` returns when
    invoked.  The result carries the return code, the keyring after the
    call, and the number of keystore `import_key` invocations performed. -/
def rpmtxnImportPubkey (txnExists : Bool) (kr : rpmKeyring_s)
    (pubkey : rpmPubkey_s) (import_key_rc : rpmRC) :
    rpmRC × rpmKeyring_s × Nat :=
  if txnExists then
    match rpmKeyringLookupKey kr pubkey with
    | some oldkey =>
      match rpmPubkeyMerge oldkey pubkey with
      | none => (.RPMRC_OK, kr, 0)
      | some mergedkey =>
        let res := rpmKeyringModify kr mergedkey .RPMKEYRING_REPLACE
        if res.1 < 0 then (.RPMRC_FAIL, kr, 0)
        else if res.1 = 0 then (import_key_rc, res.2, 1)
        else (.RPMRC_OK, res.2, 0)
    | none =>
      let res := rpmKeyringModify kr pubkey .RPMKEYRING_ADD
      if res.1 < 0 then (.RPMRC_FAIL, kr, 0)
      else if res.1 = 0 then (import_key_rc, res.2, 1)
      else (.RPMRC_OK, res.2, 0)
  else
    (.RPMRC_FAIL, kr, 0)

/-- C3: importing a key whose fingerprint is not yet in the keyring
    succeeds with exactly one keystore write, after which the fingerprint
    lookup finds a key; importing the very same packet again returns
    success while performing no keystore write and leaving the keyring
    unchanged (the merge is a no-op, so no merged record is produced and
    `import_key` is not called again). -/
theorem rpmtxnImportPubkey_spec_c3 (kr : rpmKeyring_s) (pkt : rpmPubkey_s)
    (rc2 : rpmRC) (h : rpmKeyringLookupKey kr pkt = none) :
    (rpmtxnImportPubkey true kr pkt .RPMRC_OK).1 = .RPMRC_OK ∧
    (rpmtxnImportPubkey true kr pkt .RPMRC_OK).2.2 = 1 ∧
    (rpmKeyringLookupKey (rpmtxnImportPubkey true kr pkt .RPMRC_OK).2.1 pkt).isSome
      = true ∧
    rpmtxnImportPubkey true (rpmtxnImportPubkey true kr pkt .RPMRC_OK).2.1 pkt rc2
      = (.RPMRC_OK, (rpmtxnImportPubkey true kr pkt .RPMRC_OK).2.1, 0) := by
  have hfind : ∀ k ∈ kr.keys, ¬ (k.fingerprint == pkt.fingerprint) = true := by
    have h' : kr.keys.find? (fun k => k.fingerprint == pkt.fingerprint) = none := h
    exact List.find?_eq_none.mp h'
  have hany : kr.keys.any (fun k => k.fingerprint == pkt.fingerprint) = false := by
    rw [List.any_eq_false]
    exact hfind
  have h1 : rpmtxnImportPubkey true kr pkt .RPMRC_OK
      = (.RPMRC_OK, { keys := pkt :: kr.keys }, 1) := by
    simp [rpmtxnImportPubkey, h, rpmKeyringModify, hany]
  have hlook : rpmKeyringLookupKey { keys := pkt :: kr.keys } pkt = some pkt := by
    simp [rpmKeyringLookupKey, List.find?_cons_of_pos]
  have hmerge : rpmPubkeyMerge pkt pkt = none := by
    have : pkt.material.filter (fun m => !(pkt.material.contains m)) = [] := by
      simp [List.filter_eq_nil_iff]
    simp [rpmPubkeyMerge, this]
  refine ⟨by rw [h1], by rw [h1], by rw [h1]; simp [hlook], ?_⟩
  rw [h1]
  simp [rpmtxnImportPubkey, hlook, hmerge]

/-- Witness for C3: the empty keyring and a concrete key packet. -/
theorem rpmtxnImportPubkey_spec_c3_witness :
    rpmKeyringLookupKey { keys := [] } { fingerprint := 1, material := [5] } = none ∧
    ((rpmtxnImportPubkey true { keys := [] }
        { fingerprint := 1, material := [5] } .RPMRC_OK).1 = .RPMRC_OK ∧
      (rpmtxnImportPubkey true { keys := [] }
        { fingerprint := 1, material := [5] } .RPMRC_OK).2.2 = 1 ∧
      (rpmKeyringLookupKey
        (rpmtxnImportPubkey true { keys := [] }
          { fingerprint := 1, material := [5] } .RPMRC_OK).2.1
        { fingerprint := 1, material := [5] }).isSome = true ∧
      rpmtxnImportPubkey true
        (rpmtxnImportPubkey true { keys := [] }
          { fingerprint := 1, material := [5] } .RPMRC_OK).2.1
        { fingerprint := 1, material := [5] } .RPMRC_FAIL
      = (.RPMRC_OK,
         (rpmtxnImportPubkey true { keys := [] }
           { fingerprint := 1, material := [5] } .RPMRC_OK).2.1, 0)) :=
  ⟨rfl, rpmtxnImportPubkey_spec_c3 { keys := [] }
    { fingerprint := 1, material := [5] } .RPMRC_FAIL rfl⟩

/-- `risdigit` from the rpm string utilities: ASCII digit test. -/
def risdigit (c : Char) : Bool := '0' ≤ c && c ≤ '9'

/-- The three label-grammar failures of `rpmtsInitIterator`
    (rpmts.cc:199-230).  Each aborts iterator creation and logs its own
    message: `extraParen` logs the extra-open-paren message (line 202),
    `missingOpen` the missing-open-paren message (line 220),
    `missingClose` the missing-close-paren message (line 228). -/
inductive LabelErr where
  | extraParen
  | missingOpen
  | missingClose
deriving DecidableEq, Repr

/-- The character loop of the label-key translation
    (rpmts.cc:194-231), carried over the remaining input, the output
    accumulated so far (reversed) and the paren nesting level.  At `(`
    with level 0 the scan `for (se = s; *se && risdigit(*se); se++)`
    is `dropWhile risdigit`; when it stops on `:` the explicit epoch is
    skipped (`s = se + 1`), and in both cases `-` is emitted in place of
    the `(`.  A `)` at level 1 is dropped; a nested `(` or an unmatched
    `)` or a missing `)` fail with their respective errors. -/
def labelGo : List Char → List Char → Nat → Except LabelErr (List Char)
  | [], acc, level =>
    if level ≠ 0 then .error .missingClose else .ok acc.reverse
  | c :: s, acc, level =>
    if c = '(' then
      if level ≠ 0 then .error .extraParen
      else if h : ((s.dropWhile risdigit).head? = some ':') then
        labelGo (s.dropWhile risdigit).tail ('-' :: acc) 1
      else
        labelGo s ('-' :: acc) 1
    else if c = ')' then
      if level ≠ 1 then .error .missingOpen
      else labelGo s acc 0
    else
      labelGo s (c :: acc) level
termination_by s _ _ => s.length
decreasing_by
  all_goals simp_wf
  all_goals try omega
  all_goals
    have hle : (s.dropWhile risdigit).length ≤ s.length :=
      (List.dropWhile_suffix risdigit).sublist.length_le
  all_goals
    have hne : s.dropWhile risdigit ≠ [] := by
      intro hc
      rw [hc] at h
      simp at h
  all_goals
    have htl : (s.dropWhile risdigit).tail.length
        = (s.dropWhile risdigit).length - 1 := List.length_tail _
  all_goals
    have hpos : 0 < (s.dropWhile risdigit).length := List.length_pos.mpr hne
  all_goals omega

/-- The label-key translation of `rpmtsInitIterator` (rpmts.cc:183-232):
    attempted only when the key contains a `(` (the `strchr` guard at
    line 185); a key without `(` is used untranslated. -/
def labelTranslate (s : List Char) : Except LabelErr (List Char) :=
  if '(' ∈ s then labelGo s [] 0 else .ok s

/-- `rpmtsInitIterator` restricted to the label index: on a label-grammar
    failure the iterator is null (`none`) and the matching error is
    logged; otherwise the translated key is handed to
    `rpmdbInitIterator`. -/
def rpmtsInitIteratorLABEL (key : String) : Option String × Option LabelErr :=
  match labelTranslate key.data with
  | .ok k => (some (String.mk k), none)
  | .error e => (none, some e)

/-- One step of `labelGo` on an ordinary character. -/
theorem labelGo_default (c : Char) (s acc : List Char) (level : Nat)
    (h1 : c ≠ '(') (h2 : c ≠ ')') :
    labelGo (c :: s) acc level = labelGo s (c :: acc) level := by
  rw [labelGo.eq_def]
  simp [h1, h2]

/-- One step of `labelGo` on `(` at top level when the scan finds an
    explicit epoch. -/
theorem labelGo_open_epoch (s rest acc : List Char)
    (h : s.dropWhile risdigit = ':' :: rest) :
    labelGo ('(' :: s) acc 0 = labelGo rest ('-' :: acc) 1 := by
  rw [labelGo.eq_def]
  simp [h]

/-- One step of `labelGo` on `(` at top level when the scan finds no
    explicit epoch. -/
theorem labelGo_open_noepoch (s acc : List Char)
    (h : (s.dropWhile risdigit).head? ≠ some ':') :
    labelGo ('(' :: s) acc 0 = labelGo s ('-' :: acc) 1 := by
  rw [labelGo.eq_def]
  simp [h]

/-- A `(` inside an already-open group fails at once. -/
theorem labelGo_open_nested (s acc : List Char) :
    labelGo ('(' :: s) acc 1 = .error .extraParen := by
  rw [labelGo.eq_def]
  simp

/-- A `)` closing the open group is dropped. -/
theorem labelGo_close (s acc : List Char) :
    labelGo (')' :: s) acc 1 = labelGo s acc 0 := by
  rw [labelGo.eq_def]
  simp

/-- A `)` at top level fails at once. -/
theorem labelGo_close_top (s acc : List Char) :
    labelGo (')' :: s) acc 0 = .error .missingOpen := by
  rw [labelGo.eq_def]
  simp

/-- Exhausted input at top level succeeds with the accumulated output. -/
theorem labelGo_nil_ok (acc : List Char) :
    labelGo [] acc 0 = .ok acc.reverse := by
  rw [labelGo.eq_def]
  simp

/-- Exhausted input inside an open group fails. -/
theorem labelGo_nil_open (acc : List Char) :
    labelGo [] acc 1 = .error .missingClose := by
  rw [labelGo.eq_def]
  simp

/-- `labelGo` copies a run of ordinary characters to the output. -/
theorem labelGo_copy (n : List Char) (l acc : List Char) (level : Nat)
    (h : ∀ c ∈ n, c ≠ '(' ∧ c ≠ ')') :
    labelGo (n ++ l) acc level = labelGo l (n.reverse ++ acc) level := by
  induction n generalizing acc with
  | nil => simp
  | cons c n ih =>
    have hc := h c (List.mem_cons_self c n)
    rw [List.cons_append, labelGo_default c _ _ _ hc.1 hc.2,
      ih (c :: acc) (fun x hx => h x (List.mem_cons_of_mem c hx))]
    simp

/-- A paren-free tail inside an open group always ends in the
    missing-`)` failure. -/
theorem labelGo_run_open (m acc : List Char)
    (h : ∀ c ∈ m, c ≠ '(' ∧ c ≠ ')') :
    labelGo m acc 1 = .error .missingClose := by
  have := labelGo_copy m [] acc 1 h
  rw [List.append_nil] at this
  rw [this, labelGo_nil_open]

/-- Decomposition of the epoch scan when it stops on a `:`. -/
theorem dropWhile_colon_split (m r : List Char) (c : Char)
    (hc : risdigit c = false)
    (hcase : ((m ++ c :: r).dropWhile risdigit).head? = some ':')
    (hcolon : c ≠ ':') :
    ∃ m1, m.dropWhile risdigit = ':' :: m1 ∧
      (m ++ c :: r).dropWhile risdigit = ':' :: (m1 ++ c :: r) := by
  rw [List.dropWhile_append] at hcase
  by_cases hnil : (m.dropWhile risdigit).isEmpty
  · rw [if_pos hnil, List.dropWhile_cons, hc] at hcase
    simp at hcase
    exact absurd hcase.symm (fun hc => hcolon hc.symm)
  · rw [if_neg hnil] at hcase
    obtain ⟨d, m1, hm⟩ : ∃ d m1, m.dropWhile risdigit = d :: m1 := by
      cases hdw : m.dropWhile risdigit with
      | nil => rw [hdw] at hnil; simp at hnil
      | cons d m1 => exact ⟨d, m1, rfl⟩
    rw [hm] at hcase
    simp at hcase
    subst hcase
    refine ⟨m1, hm, ?_⟩
    rw [List.dropWhile_append, if_neg hnil, hm]
    simp

/-- Every character of the dropped part of a list belongs to the list. -/
theorem mem_of_mem_dropWhile (p : Char → Bool) (l : List Char) (c : Char)
    (h : c ∈ l.dropWhile p) : c ∈ l :=
  (List.dropWhile_suffix p).sublist.mem h

/-- General translation: a label of the shape `n(d:v)` with `n`, `v`
    paren-free and `d` a digit run translates to `n-v` — the `(` becomes
    `-`, the explicit epoch `d:` is dropped, the `)` is dropped. -/
theorem labelGo_epoch_form (n d v : List Char)
    (hn : ∀ c ∈ n, c ≠ '(' ∧ c ≠ ')')
    (hd : ∀ c ∈ d, risdigit c = true)
    (hv : ∀ c ∈ v, c ≠ '(' ∧ c ≠ ')') :
    labelGo (n ++ ('(' :: (d ++ (':' :: (v ++ [')']))))) [] 0
      = .ok (n ++ '-' :: v) := by
  rw [labelGo_copy n _ _ _ hn]
  have hnil : d.dropWhile risdigit = [] := List.dropWhile_eq_nil_iff.mpr hd
  have hcolon : risdigit ':' = false := by decide
  have hdrop : (d ++ (':' :: (v ++ [')']))).dropWhile risdigit
      = ':' :: (v ++ [')']) := by
    rw [List.dropWhile_append, hnil]
    simp [List.dropWhile_cons, hcolon]
  rw [labelGo_open_epoch _ _ _ hdrop]
  rw [labelGo_copy v _ _ _ hv]
  rw [labelGo_close, labelGo_nil_ok]
  simp

/-- General nested-paren failure: a `(` while a group is already open
    fails with the extra-`(` error, whether or not an epoch scan skipped
    part of the group body. -/
theorem labelGo_second_open (n m r : List Char)
    (hn : ∀ c ∈ n, c ≠ '(' ∧ c ≠ ')')
    (hm : ∀ c ∈ m, c ≠ '(' ∧ c ≠ ')') :
    labelGo (n ++ ('(' :: (m ++ '(' :: r))) [] 0 = .error .extraParen := by
  rw [labelGo_copy n _ _ _ hn]
  by_cases hcase : ((m ++ '(' :: r).dropWhile risdigit).head? = some ':'
  · obtain ⟨m1, hm1, hdrop⟩ :=
      dropWhile_colon_split m r '(' (by decide) hcase (by decide)
    rw [labelGo_open_epoch _ _ _ hdrop]
    have hm1mem : ∀ c ∈ m1, c ≠ '(' ∧ c ≠ ')' := by
      intro c hc
      exact hm c (mem_of_mem_dropWhile risdigit m c
        (by rw [hm1]; exact List.mem_cons_of_mem ':' hc))
    rw [labelGo_copy m1 _ _ _ hm1mem]
    exact labelGo_open_nested r _
  · rw [labelGo_open_noepoch _ _ hcase]
    rw [labelGo_copy m _ _ _ hm]
    exact labelGo_open_nested r _

/-- General stray-`)` failure: a `)` before any `(` fails with the
    missing-`(` error. -/
theorem labelGo_stray_close (n r : List Char)
    (hn : ∀ c ∈ n, c ≠ '(' ∧ c ≠ ')') :
    labelGo (n ++ ')' :: r) [] 0 = .error .missingOpen := by
  rw [labelGo_copy n _ _ _ hn]
  exact labelGo_close_top r _

/-- General unterminated-group failure: a `(` never closed fails with the
    missing-`)` error, whether or not an epoch scan skipped part of the
    group body. -/
theorem labelGo_unclosed (n m : List Char)
    (hn : ∀ c ∈ n, c ≠ '(' ∧ c ≠ ')')
    (hm : ∀ c ∈ m, c ≠ '(' ∧ c ≠ ')') :
    labelGo (n ++ '(' :: m) [] 0 = .error .missingClose := by
  rw [labelGo_copy n _ _ _ hn]
  by_cases hcase : (m.dropWhile risdigit).head? = some ':'
  · obtain ⟨d, m1, hdw⟩ : ∃ d m1, m.dropWhile risdigit = d :: m1 := by
      cases hdw : m.dropWhile risdigit with
      | nil => rw [hdw] at hcase; simp at hcase
      | cons d m1 => exact ⟨d, m1, rfl⟩
    rw [hdw] at hcase
    simp at hcase
    subst hcase
    rw [labelGo_open_epoch _ m1 _ hdw]
    refine labelGo_run_open m1 _ ?_
    intro c hc
    exact hm c (mem_of_mem_dropWhile risdigit m c
      (by rw [hdw]; exact List.mem_cons_of_mem ':' hc))
  · rw [labelGo_open_noepoch _ _ hcase]
    exact labelGo_run_open m _ hm

/-- Lifting a successful `labelGo` run to the iterator entry point. -/
theorem initIterLabel_ok (cs out : List Char) (hmem : '(' ∈ cs)
    (h : labelGo cs [] 0 = .ok out) :
    rpmtsInitIteratorLABEL (String.mk cs) = (some (String.mk out), none) := by
  have ht : labelTranslate cs = .ok out := by
    unfold labelTranslate
    rw [if_pos hmem, h]
  unfold rpmtsInitIteratorLABEL
  have hd : (String.mk cs).data = cs := rfl
  rw [hd, ht]

/-- Lifting a failing `labelGo` run to the iterator entry point: the
    iterator is null and the error is reported. -/
theorem initIterLabel_err (cs : List Char) (e : LabelErr) (hmem : '(' ∈ cs)
    (h : labelGo cs [] 0 = .error e) :
    rpmtsInitIteratorLABEL (String.mk cs) = (none, some e) := by
  have ht : labelTranslate cs = .error e := by
    unfold labelTranslate
    rw [if_pos hmem, h]
  unfold rpmtsInitIteratorLABEL
  have hd : (String.mk cs).data = cs := rfl
  rw [hd, ht]

/-- C6 counterexample: a label key containing a second `(` — opening a
    second balanced group after the first one closed — does NOT make
    iterator creation fail: the code only rejects a `(` nested inside an
    open group (`level++ != 0`, rpmts.cc:201), so `"a(b)(c)"` is accepted
    and translates to `"a-b-c"`. -/
theorem rpmtsInitIterator_second_group_c6_cex :
    rpmtsInitIteratorLABEL "a(b)(c)" = (some "a-b-c", none) := by
  have hgo : labelGo ['a', '(', 'b', ')', '(', 'c', ')'] [] 0
      = .ok ['a', '-', 'b', '-', 'c'] := by
    rw [labelGo_default 'a' ['(', 'b', ')', '(', 'c', ')'] [] 0
          (by decide) (by decide),
        labelGo_open_noepoch ['b', ')', '(', 'c', ')'] ['a'] (by decide),
        labelGo_default 'b' [')', '(', 'c', ')'] ['-', 'a'] 1
          (by decide) (by decide),
        labelGo_close ['(', 'c', ')'] ['b', '-', 'a'],
        labelGo_open_noepoch ['c', ')'] ['b', '-', 'a'] (by decide),
        labelGo_default 'c' [')'] ['-', 'b', '-', 'a'] 1 (by decide) (by decide),
        labelGo_close [] ['c', '-', 'b', '-', 'a'],
        labelGo_nil_ok ['c', '-', 'b', '-', 'a']]
    rfl
  have h := initIterLabel_ok ['a', '(', 'b', ')', '(', 'c', ')']
    ['a', '-', 'b', '-', 'c'] (by decide) hgo
  have e1 : String.mk ['a', '(', 'b', ')', '(', 'c', ')'] = "a(b)(c)" := by decide
  have e2 : String.mk ['a', '-', 'b', '-', 'c'] = "a-b-c" := by decide
  rw [e1, e2] at h
  exact h

/-- C6 (amended): on the label index, a key `n(d:v)` — `n`, `v` free of
    parentheses, `d` a digit run — translates with the `(` becoming `-`,
    the explicit epoch `d:` dropped and the `)` dropped, so
    `"name(1:2.3-4)"` parses as key `"name-2.3-4"`; a `(` nested inside a
    still-open group fails iterator creation (null) with the extra-`(`
    error, a `)` before any `(` (in a key containing `(`) fails with the
    missing-`(` error, and an unterminated `(` fails with the
    missing-`)` error. -/
theorem rpmtsInitIterator_label_c6 :
    (∀ n d v : List Char,
      (∀ c ∈ n, c ≠ '(' ∧ c ≠ ')') →
      (∀ c ∈ d, risdigit c = true) →
      (∀ c ∈ v, c ≠ '(' ∧ c ≠ ')') →
      rpmtsInitIteratorLABEL
          (String.mk (n ++ ('(' :: (d ++ (':' :: (v ++ [')']))))))
        = (some (String.mk (n ++ '-' :: v)), none)) ∧
    rpmtsInitIteratorLABEL "name(1:2.3-4)" = (some "name-2.3-4", none) ∧
    (∀ n m r : List Char,
      (∀ c ∈ n, c ≠ '(' ∧ c ≠ ')') →
      (∀ c ∈ m, c ≠ '(' ∧ c ≠ ')') →
      rpmtsInitIteratorLABEL (String.mk (n ++ ('(' :: (m ++ '(' :: r))))
        = (none, some .extraParen)) ∧
    (∀ n r : List Char,
      (∀ c ∈ n, c ≠ '(' ∧ c ≠ ')') → '(' ∈ r →
      rpmtsInitIteratorLABEL (String.mk (n ++ ')' :: r))
        = (none, some .missingOpen)) ∧
    (∀ n m : List Char,
      (∀ c ∈ n, c ≠ '(' ∧ c ≠ ')') →
      (∀ c ∈ m, c ≠ '(' ∧ c ≠ ')') →
      rpmtsInitIteratorLABEL (String.mk (n ++ '(' :: m))
        = (none, some .missingClose)) := by
  refine ⟨?_, ?_, ?_, ?_, ?_⟩
  · intro n d v hn hd hv
    exact initIterLabel_ok _ _ (by simp) (labelGo_epoch_form n d v hn hd hv)
  · have h := initIterLabel_ok
      ("name".data ++ ('(' :: (['1'] ++ (':' :: ("2.3-4".data ++ [')'])))))
      ("name".data ++ '-' :: "2.3-4".data) (by simp)
      (labelGo_epoch_form "name".data ['1'] "2.3-4".data
        (by decide) (by decide) (by decide))
    have e1 : String.mk
        ("name".data ++ ('(' :: (['1'] ++ (':' :: ("2.3-4".data ++ [')'])))))
        = "name(1:2.3-4)" := by decide
    have e2 : String.mk ("name".data ++ '-' :: "2.3-4".data)
        = "name-2.3-4" := by decide
    rw [e1, e2] at h
    exact h
  · intro n m r hn hm
    exact initIterLabel_err _ _ (by simp) (labelGo_second_open n m r hn hm)
  · intro n r hn hr
    refine initIterLabel_err _ _ ?_ (labelGo_stray_close n r hn)
    simp [hr]
  · intro n m hn hm
    exact initIterLabel_err _ _ (by simp) (labelGo_unclosed n m hn hm)

/-- Witness for C6 at concrete keys: `"n(1:v)"` translates to `"n-v"`,
    `"n((r"` fails with the extra-`(` error, `")x("` fails with the
    missing-`(` error, `"n(v"` fails with the missing-`)` error. -/
theorem rpmtsInitIterator_label_c6_witness :
    rpmtsInitIteratorLABEL (String.mk
        (['n'] ++ ('(' :: (['1'] ++ (':' :: (['v'] ++ [')']))))))
      = (some (String.mk (['n'] ++ '-' :: ['v'])), none) ∧
    rpmtsInitIteratorLABEL (String.mk (['n'] ++ ('(' :: (['b'] ++ '(' :: ['r']))))
      = (none, some .extraParen) ∧
    rpmtsInitIteratorLABEL (String.mk ([] ++ ')' :: ['x', '(']))
      = (none, some .missingOpen) ∧
    rpmtsInitIteratorLABEL (String.mk (['n'] ++ '(' :: ['v']))
      = (none, some .missingClose) := by
  refine ⟨?_, ?_, ?_, ?_⟩
  · exact rpmtsInitIterator_label_c6.1 ['n'] ['1'] ['v']
      (by decide) (by decide) (by decide)
  · exact rpmtsInitIterator_label_c6.2.2.1 ['n'] ['b'] ['r'] (by decide) (by decide)
  · exact rpmtsInitIterator_label_c6.2.2.2.1 [] ['x', '('] (by decide) (by decide)
  · exact rpmtsInitIterator_label_c6.2.2.2.2 ['n'] ['v'] (by decide) (by decide)

/-- The element-type filter test of `rpmtsiNext` (rpmts.cc:1039):
    `types == 0 || (rpmteType(te) & types) != 0`. -/
def teMatches (types : Nat) (te : rpmte_s) : Bool :=
  types == 0 || Nat.land te.teType types != 0

/-- The element iterator (`rpmtsi_s`, rpmts.cc:44): the `order` sequence
    reached through the linked set, and the cursor `oc`. -/
structure rpmtsi_s where
  order : List rpmte_s
  oc : Nat
deriving DecidableEq, Repr

/-- `rpmtsiInit` (rpmts.cc:1006): links the set and starts the cursor at
    index 0. -/
def rpmtsiInit (ts : rpmts_s) : rpmtsi_s :=
  { order := ts.members.order, oc := 0 }

/-- `rpmtsiNextElement` (rpmts.cc:1020): null on an empty `order` or an
    exhausted cursor; otherwise the bounds-checked element at `oc`
    (`rpmtsElement`) with the cursor advanced by `tsi->oc++`. -/
def rpmtsiNextElement (tsi : rpmtsi_s) : Option rpmte_s × rpmtsi_s :=
  if tsi.order.length = 0 then (none, tsi)
  else if h : tsi.oc < tsi.order.length then
    (some (tsi.order.get ⟨tsi.oc, h⟩), { tsi with oc := tsi.oc + 1 })
  else (none, tsi)

/-- `rpmtsiNext` (rpmts.cc:1034): the `while` loop over
    `rpmtsiNextElement` that stops at the first element matching the type
    filter, or at exhaustion.  The step of `rpmtsiNextElement` is inlined
    here to drive the recursion; `rpmtsiNext_unfold` below proves the
    composed shape of the source. -/
def rpmtsiNext (tsi : rpmtsi_s) (types : Nat) : Option rpmte_s × rpmtsi_s :=
  if h : tsi.oc < tsi.order.length then
    if teMatches types (tsi.order.get ⟨tsi.oc, h⟩) then
      (some (tsi.order.get ⟨tsi.oc, h⟩), { tsi with oc := tsi.oc + 1 })
    else
      rpmtsiNext { tsi with oc := tsi.oc + 1 } types
  else
    (none, tsi)
termination_by tsi.order.length - tsi.oc
decreasing_by
  simp_wf
  omega

/-- `rpmtsiNext` at an exhausted cursor: null, state unchanged. -/
theorem rpmtsiNext_stop (tsi : rpmtsi_s) (types : Nat)
    (h : ¬ tsi.oc < tsi.order.length) :
    rpmtsiNext tsi types = (none, tsi) := by
  rw [rpmtsiNext.eq_def]
  simp [h]

/-- `rpmtsiNext` at a matching element: yields it and advances. -/
theorem rpmtsiNext_hit (tsi : rpmtsi_s) (types : Nat)
    (h : tsi.oc < tsi.order.length)
    (hm : teMatches types (tsi.order.get ⟨tsi.oc, h⟩) = true) :
    rpmtsiNext tsi types
      = (some (tsi.order.get ⟨tsi.oc, h⟩), { tsi with oc := tsi.oc + 1 }) := by
  rw [rpmtsiNext.eq_def]
  simp only [List.get_eq_getElem] at hm
  simp [h, hm]

/-- `rpmtsiNext` at a non-matching element: skips it. -/
theorem rpmtsiNext_skip (tsi : rpmtsi_s) (types : Nat)
    (h : tsi.oc < tsi.order.length)
    (hm : teMatches types (tsi.order.get ⟨tsi.oc, h⟩) = false) :
    rpmtsiNext tsi types = rpmtsiNext { tsi with oc := tsi.oc + 1 } types := by
  rw [rpmtsiNext.eq_def]
  simp only [List.get_eq_getElem] at hm
  simp [h, hm]

/-- The loop of `rpmtsiNext` is one `rpmtsiNextElement` step followed by
    the filter test, exactly as the source composes them. -/
theorem rpmtsiNext_unfold (tsi : rpmtsi_s) (types : Nat) :
    rpmtsiNext tsi types
      = match rpmtsiNextElement tsi with
        | (none, tsi') => (none, tsi')
        | (some te, tsi') =>
          if teMatches types te then (some te, tsi')
          else rpmtsiNext tsi' types := by
  unfold rpmtsiNextElement
  by_cases h0 : tsi.order.length = 0
  · rw [if_pos h0, rpmtsiNext_stop tsi types (by omega)]
  · rw [if_neg h0]
    by_cases hlt : tsi.oc < tsi.order.length
    · rw [dif_pos hlt]
      by_cases hm : teMatches types (tsi.order.get ⟨tsi.oc, hlt⟩)
      · rw [rpmtsiNext_hit tsi types hlt hm]
        simp only [List.get_eq_getElem] at hm
        simp [hm]
      · rw [rpmtsiNext_skip tsi types hlt (by simpa using hm)]
        simp only [List.get_eq_getElem] at hm
        simp [hm]
    · rw [dif_neg hlt, rpmtsiNext_stop tsi types hlt]

/-- Repeated calls to `rpmtsiNext`, listing every yielded element until
    the first null result.  `fuel` bounds the number of calls; any value
    at least the length of the snapshot is enough to reach exhaustion. -/
def runIter : Nat → rpmtsi_s → Nat → List rpmte_s
  | 0, _, _ => []
  | fuel + 1, tsi, types =>
    match rpmtsiNext tsi types with
    | (none, _) => []
    | (some te, tsi') => te :: runIter fuel tsi' types

/-- Driving `rpmtsiNext` to exhaustion from cursor `oc` yields exactly
    the type-matching elements of the rest of the snapshot, in order. -/
theorem runIter_filter (k : Nat) :
    ∀ (oc fuel : Nat) (order : List rpmte_s) (types : Nat),
      order.length - oc ≤ k → order.length - oc ≤ fuel →
      runIter fuel { order := order, oc := oc } types
        = (order.drop oc).filter (teMatches types) := by
  induction k with
  | zero =>
    intro oc fuel order types hk hf
    have hstop := rpmtsiNext_stop { order := order, oc := oc } types
      (by show ¬ oc < order.length; omega)
    have hdrop : order.drop oc = [] := List.drop_eq_nil_of_le (by omega)
    cases fuel with
    | zero => simp [runIter, hdrop]
    | succ f => simp [runIter, hstop, hdrop]
  | succ k ih =>
    intro oc fuel order types hk hf
    by_cases hlt : oc < order.length
    · obtain ⟨f, rfl⟩ : ∃ f, fuel = f + 1 := ⟨fuel - 1, by omega⟩
      have hdrop : order.drop oc = order.get ⟨oc, hlt⟩ :: order.drop (oc + 1) :=
        List.drop_eq_get_cons hlt
      by_cases hm : teMatches types (order.get ⟨oc, hlt⟩)
      · have hnext : rpmtsiNext { order := order, oc := oc } types
            = (some (order.get ⟨oc, hlt⟩), { order := order, oc := oc + 1 }) :=
          rpmtsiNext_hit { order := order, oc := oc } types hlt hm
        simp only [runIter, hnext]
        rw [ih (oc + 1) f order types (by omega) (by omega), hdrop,
          List.filter_cons_of_pos (by simpa using hm)]
      · have hnext : rpmtsiNext { order := order, oc := oc } types
            = rpmtsiNext { order := order, oc := oc + 1 } types :=
          rpmtsiNext_skip { order := order, oc := oc } types hlt
            (by simpa using hm)
        simp only [runIter, hnext]
        have hfold :
            (match rpmtsiNext { order := order, oc := oc + 1 } types with
              | (none, _) => []
              | (some te, tsi') => te :: runIter f tsi' types)
            = runIter (f + 1) { order := order, oc := oc + 1 } types := by
          simp [runIter]
        rw [hfold, ih (oc + 1) (f + 1) order types (by omega) (by omega), hdrop,
          List.filter_cons_of_neg (by simpa using hm)]
    · have hstop := rpmtsiNext_stop { order := order, oc := oc } types hlt
      have hdrop : order.drop oc = [] := List.drop_eq_nil_of_le (by omega)
      cases fuel with
      | zero => simp [runIter, hdrop]
      | succ f => simp [runIter, hstop, hdrop]

/-- C7: driving a fresh iterator to exhaustion with type filter 0 yields
    every element of the snapshot exactly once in index order; with any
    filter it yields, in the same order, exactly the elements whose type
    mask intersects the filter; and at an exhausted cursor `rpmtsiNext`
    returns null with the iterator unchanged, so every further call
    returns null as well. -/
theorem rpmtsiNext_spec_c7 :
    (∀ (ts : rpmts_s) (types : Nat),
      runIter (rpmtsNElements ts) (rpmtsiInit ts) types
        = ts.members.order.filter (teMatches types)) ∧
    (∀ ts : rpmts_s,
      runIter (rpmtsNElements ts) (rpmtsiInit ts) 0 = ts.members.order) ∧
    (∀ (tsi : rpmtsi_s) (types : Nat), tsi.order.length ≤ tsi.oc →
      rpmtsiNext tsi types = (none, tsi)) := by
  have hrun : ∀ (ts : rpmts_s) (types : Nat),
      runIter (rpmtsNElements ts) (rpmtsiInit ts) types
        = ts.members.order.filter (teMatches types) := by
    intro ts types
    have := runIter_filter ts.members.order.length 0 (rpmtsNElements ts)
      ts.members.order types (by omega) (by show _ - _ ≤ _; simp [rpmtsNElements])
    simpa [rpmtsiInit] using this
  refine ⟨hrun, ?_, ?_⟩
  · intro ts
    rw [hrun ts 0]
    apply List.filter_eq_self.mpr
    intro te hte
    simp [teMatches]
  · intro tsi types h
    exact rpmtsiNext_stop tsi types (by omega)

/-- Witness for C7: an iterator over a one-element snapshot whose cursor
    is already past the end keeps returning null without moving. -/
theorem rpmtsiNext_spec_c7_witness :
    ([te1] : List rpmte_s).length ≤ 1 ∧
    rpmtsiNext { order := [te1], oc := 1 } 0 = (none, { order := [te1], oc := 1 }) := by
  refine ⟨by decide, rpmtsiNext_spec_c7.2.2 { order := [te1], oc := 1 } 0 (by decide)⟩
